import Mathlib

/-!
Shallow embedding of the candidature lifecycle state machine, the
translation fallback resolver and the score-classification validation of
the recruitment backend (NestJS + Prisma source), together with proofs of
the specified properties.

Conventions of the embedding:
* Entity ids and timestamps are natural numbers.
* Prisma rows are Lean structures; tables are lists of rows.
* A service method is a function from the database state (and its
  arguments) to `Except ServiceError` of the new database state; an
  `Except.error` result models a thrown exception, in which case the
  caller keeps the unchanged previous state (the source performs all
  validation reads before any write, and groups multi-row writes in
  `prisma.$transaction` unless noted otherwise).
* TypeScript optional fields that distinguish `undefined` (field absent,
  Prisma skips the column) from `null` (column set to NULL) are modelled
  as `Option (Option _)`: `none` = undefined, `some none` = null.
* `CandidaturesService.create` issues its two writes as two separate
  top-level awaited Prisma calls (no `$transaction`); it is therefore
  modelled as a list of atomic write effects so that partially applied
  executions are expressible.
-/

/-- Candidature lifecycle statuses (Prisma enum `CandidatureStatus`). -/
inductive CandidatureStatus
  | pending
  | assigned
  | in_progress
  | completed
  | in_review
  | evaluated
  | archived
deriving DecidableEq, Repr

/-- Job application statuses (Prisma enum `ApplicationStatus`). -/
inductive ApplicationStatus
  | pending
  | approved
  | rejected
  | withdrawn
deriving DecidableEq, Repr

/-- User roles (Prisma enum `UserRole`). -/
inductive UserRole
  | admin
  | psychologue
  | candidate
deriving DecidableEq, Repr

/-- Decision outcomes (Prisma enum `DecisionType`). -/
inductive DecisionType
  | favorable
  | defavorable
deriving DecidableEq, Repr

/-- Errors thrown by the services (NestJS exception classes). -/
inductive ServiceError
  | notFound (message : String)
  | badRequest (message : String)
  | conflict (message : String)
deriving DecidableEq, Repr

/-- A user row (only the fields the candidature services read). -/
structure User where
  id : Nat
  role : UserRole
deriving DecidableEq, Repr

/-- A site row. -/
structure Site where
  id : Nat
deriving DecidableEq, Repr

/-- A department row. -/
structure Department where
  id : Nat
deriving DecidableEq, Repr

/-- A job application row. -/
structure JobApplication where
  id : Nat
  candidateId : Nat
  siteId : Nat
  departmentId : Nat
  targetPosition : String
  status : ApplicationStatus
  reviewedBy : Option Nat := none
  reviewedAt : Option Nat := none
deriving DecidableEq, Repr

/-- A candidature row. -/
structure Candidature where
  id : Nat
  jobApplicationId : Nat
  status : CandidatureStatus
  dpNumber : Option String := none
  examDate : Option Nat := none
  assignedPsychologueId : Option Nat := none
  assignedBy : Option Nat := none
  assignmentDate : Option Nat := none
  assignedLogicalTestId : Option Nat := none
  assignedOptionalLogicalTestId : Option Nat := none
  assignedPersonalityTestId : Option Nat := none
  decision : Option DecisionType := none
  decisionDate : Option Nat := none
  decisionBy : Option Nat := none
  decisionComments : Option String := none
  previousCandidatureId : Option Nat := none
  isReevaluation : Bool := false
deriving DecidableEq, Repr

/-- A row of the append-only `candidature_state_transitions` audit table. -/
structure CandidatureStateTransition where
  candidatureId : Nat
  fromStatus : Option CandidatureStatus
  toStatus : CandidatureStatus
  transitionedBy : Nat
  reason : Option String
deriving DecidableEq, Repr

/-- A logical test row (only the fields the candidature services read). -/
structure LogicalTest where
  id : Nat
  isActive : Bool := true
deriving DecidableEq, Repr

/-- A personality test row. -/
structure PersonalityTest where
  id : Nat
  isActive : Bool
deriving DecidableEq, Repr

/-- The database state seen by `CandidaturesService`.  `nextId` models the
id generator of the persistence layer and `now` the current clock. -/
@[ext]
structure Db where
  users : List User
  sites : List Site
  departments : List Department
  jobApplications : List JobApplication
  candidatures : List Candidature
  transitions : List CandidatureStateTransition
  logicalTests : List LogicalTest
  personalityTests : List PersonalityTest
  nextId : Nat
  now : Nat
deriving DecidableEq, Repr

/-- `prisma.candidature.findUnique({ where: { id } })`. -/
def Db.findCandidature (db : Db) (id : Nat) : Option Candidature :=
  db.candidatures.find? (fun c => c.id == id)

/-- `prisma.candidature.update({ where: { id }, data })`: rewrites the row
with the given id through `f` (which never changes the id). -/
def Db.updateCandidature (db : Db) (id : Nat) (f : Candidature → Candidature) : Db :=
  { db with candidatures := db.candidatures.map (fun c => if c.id == id then f c else c) }

/-- `prisma.candidatureStateTransition.create({ data: t })`. -/
def Db.addTransition (db : Db) (t : CandidatureStateTransition) : Db :=
  { db with transitions := db.transitions ++ [t] }

/-- `prisma.user.findUnique` filtered on the psychologue role, as done by
the `Invalid psychologue ID` guards. -/
def Db.validPsychologue (db : Db) (id : Nat) : Bool :=
  match db.users.find? (fun u => u.id == id) with
  | none => false
  | some u => u.role == UserRole.psychologue

-- ============================================================================
-- CandidaturesService (src/modules/candidatures/candidatures.service.ts)
-- ============================================================================

namespace CandidaturesService

/-- `CreateCandidatureDto`. -/
structure CreateCandidatureDto where
  jobApplicationId : Nat
  dpNumber : Option String := none
  assignedPsychologueId : Option Nat := none
  examDate : Option Nat := none
deriving DecidableEq, Repr

/-- The candidature row inserted by `create` (status `assigned` when a
psychologue is supplied, `pending` otherwise; `assignedBy` set only when a
psychologue is supplied). -/
def createRow (dto : CreateCandidatureDto) (assignedBy : Nat) (newId : Nat) : Candidature :=
  { id := newId
    jobApplicationId := dto.jobApplicationId
    status := if dto.assignedPsychologueId.isSome then .assigned else .pending
    dpNumber := dto.dpNumber
    assignedPsychologueId := dto.assignedPsychologueId
    assignedBy := if dto.assignedPsychologueId.isSome then some assignedBy else none
    examDate := dto.examDate }

/-- `CandidaturesService.create`, split into its validation phase followed
by the list of atomic write effects it issues.  The source awaits
`prisma.candidature.create` and then, when a psychologue was supplied,
`prisma.candidatureStateTransition.create`, as two separate top-level
calls that are NOT wrapped in `prisma.$transaction`; each call is one
atomic effect of the returned list. -/
def createEffects (db : Db) (dto : CreateCandidatureDto) (assignedBy : Nat) :
    Except ServiceError (List (Db → Db)) :=
  match db.jobApplications.find? (fun a => a.id == dto.jobApplicationId) with
  | none => .error (.notFound "Job application not found")
  | some jobApplication =>
    if jobApplication.status != ApplicationStatus.approved then
      .error (.badRequest "Job application must be approved before creating candidature")
    else if (db.candidatures.find? (fun c => c.jobApplicationId == dto.jobApplicationId)).isSome then
      .error (.conflict "Job application already has a candidature")
    else if dto.assignedPsychologueId.isSome &&
        !(db.validPsychologue (dto.assignedPsychologueId.getD 0)) then
      .error (.badRequest "Invalid psychologue ID")
    else
      let newId := db.nextId
      let insertCandidature : Db → Db := fun d =>
        { d with candidatures := d.candidatures ++ [createRow dto assignedBy newId]
                 nextId := newId + 1 }
      let logEffects : List (Db → Db) :=
        if dto.assignedPsychologueId.isSome then
          [fun d => d.addTransition
            { candidatureId := newId
              fromStatus := some .pending
              toStatus := .assigned
              transitionedBy := assignedBy
              reason := some "Initial assignment" }]
        else []
      .ok (insertCandidature :: logEffects)

/-- A full, uninterrupted run of `CandidaturesService.create`. -/
def create (db : Db) (dto : CreateCandidatureDto) (assignedBy : Nat) :
    Except ServiceError Db :=
  (createEffects db dto assignedBy).map (fun effects => effects.foldl (fun d e => e d) db)

/-- The database state after only the first atomic write of `create` has
been persisted (the run was interrupted before the remaining writes). -/
def createAfterFirstWrite (db : Db) (dto : CreateCandidatureDto) (assignedBy : Nat) :
    Option Db :=
  match createEffects db dto assignedBy with
  | .ok (e :: _) => some (e db)
  | _ => none

/-- `CreateManualCandidatureDto`. -/
structure CreateManualCandidatureDto where
  candidateId : Nat
  siteId : Nat
  departmentId : Nat
  positionApplied : Option String := none
  dpNumber : Option String := none
  assignedPsychologueId : Option Nat := none
  previousCandidatureId : Option Nat := none
deriving DecidableEq, Repr

/-- `CandidaturesService.createManual`: validates candidate, site,
department, optional previous candidature and optional psychologue, then
creates a pre-approved job application and the candidature in one
`prisma.$transaction`.  No state-transition row is written. -/
def createManual (db : Db) (dto : CreateManualCandidatureDto) (createdBy : Nat) :
    Except ServiceError Db :=
  match db.users.find? (fun u => u.id == dto.candidateId) with
  | none => .error (.notFound "Candidate not found")
  | some candidate =>
    if candidate.role != UserRole.candidate then
      .error (.notFound "Candidate not found")
    else if (db.sites.find? (fun s => s.id == dto.siteId)).isNone then
      .error (.notFound "Site not found")
    else if (db.departments.find? (fun d => d.id == dto.departmentId)).isNone then
      .error (.notFound "Department not found")
    else if dto.previousCandidatureId.isSome &&
        (db.findCandidature (dto.previousCandidatureId.getD 0)).isNone then
      .error (.notFound "Previous candidature not found")
    else if dto.assignedPsychologueId.isSome &&
        !(db.validPsychologue (dto.assignedPsychologueId.getD 0)) then
      .error (.badRequest "Invalid psychologue ID")
    else
      let appId := db.nextId
      let jobApplication : JobApplication :=
        { id := appId
          candidateId := dto.candidateId
          siteId := dto.siteId
          departmentId := dto.departmentId
          targetPosition := dto.positionApplied.getD "Not specified"
          status := .approved
          reviewedBy := some createdBy
          reviewedAt := some db.now }
      let candidature : Candidature :=
        { id := appId + 1
          jobApplicationId := appId
          status := if dto.assignedPsychologueId.isSome then .assigned else .pending
          dpNumber := dto.dpNumber
          assignedPsychologueId := dto.assignedPsychologueId
          assignedBy := if dto.assignedPsychologueId.isSome then some createdBy else none
          previousCandidatureId := dto.previousCandidatureId
          isReevaluation := dto.previousCandidatureId.isSome }
      .ok { db with
            jobApplications := db.jobApplications ++ [jobApplication]
            candidatures := db.candidatures ++ [candidature]
            nextId := appId + 2 }

/-- `UpdateCandidatureDto` (`none` = field absent, `some none` = explicit
null). -/
structure UpdateCandidatureDto where
  dpNumber : Option (Option String) := none
  examDate : Option (Option Nat) := none
  assignedPsychologueId : Option (Option Nat) := none
deriving DecidableEq, Repr

/-- The field rewrite performed by `CandidaturesService.update`. -/
def applyUpdateFields (dto : UpdateCandidatureDto) (userId : Nat) (c : Candidature) :
    Candidature :=
  { c with
    dpNumber := match dto.dpNumber with
      | none => c.dpNumber
      | some v => v
    examDate := match dto.examDate with
      | none => c.examDate
      | some v => v
    assignedPsychologueId := match dto.assignedPsychologueId with
      | none => c.assignedPsychologueId
      | some v => v
    assignedBy := if dto.assignedPsychologueId.isSome then some userId else c.assignedBy }

/-- `CandidaturesService.update`: field update of dpNumber, examDate and
the psychologue assignment (with the assigner recorded); never touches
the status and never writes a transition row. -/
def update (db : Db) (id : Nat) (dto : UpdateCandidatureDto) (userId : Nat) :
    Except ServiceError Db :=
  match db.findCandidature id with
  | none => .error (.notFound "Candidature not found")
  | some _ =>
    if (match dto.assignedPsychologueId with
        | some (some p) => !(db.validPsychologue p)
        | _ => false) then
      .error (.badRequest "Invalid psychologue ID")
    else
      .ok (db.updateCandidature id (applyUpdateFields dto userId))

/-- `MakeDecisionDto`. -/
structure MakeDecisionDto where
  decision : DecisionType
  comments : Option String := none
deriving DecidableEq, Repr

/-- `CandidaturesService.makeDecision`: requires status `completed` or
`in_review`; writes the transition row and the decision fields in one
`prisma.$transaction`. -/
def makeDecision (db : Db) (id : Nat) (dto : MakeDecisionDto) (decidedBy : Nat) :
    Except ServiceError Db :=
  match db.findCandidature id with
  | none => .error (.notFound "Candidature not found")
  | some candidature =>
    if !(candidature.status == .completed || candidature.status == .in_review) then
      .error (.badRequest "Decision can only be made on completed or in-review candidatures")
    else
      let db1 := db.addTransition
        { candidatureId := id
          fromStatus := some candidature.status
          toStatus := .evaluated
          transitionedBy := decidedBy
          reason := some "Decision" }
      .ok (db1.updateCandidature id (fun c =>
        { c with
          decision := some dto.decision
          decisionDate := some db.now
          decisionBy := some decidedBy
          decisionComments := dto.comments
          status := .evaluated }))

/-- `CandidaturesService.archive`: requires status `evaluated` exactly;
writes the transition row `{from: evaluated, to: archived}` and sets the
status to `archived` in one `prisma.$transaction`. -/
def archive (db : Db) (id : Nat) (archivedBy : Nat) : Except ServiceError Db :=
  match db.findCandidature id with
  | none => .error (.notFound "Candidature not found")
  | some candidature =>
    if candidature.status != CandidatureStatus.evaluated then
      .error (.badRequest "Only evaluated candidatures can be archived")
    else
      let db1 := db.addTransition
        { candidatureId := id
          fromStatus := some candidature.status
          toStatus := .archived
          transitionedBy := archivedBy
          reason := some "Archived" }
      .ok (db1.updateCandidature id (fun c => { c with status := .archived }))

end CandidaturesService

namespace CandidaturesService

/-- `AssignPsychologueDto`. -/
structure AssignPsychologueDto where
  psychologueId : Nat
deriving DecidableEq, Repr

/-- `CandidaturesService.assignPsychologue`: validates the psychologue,
then in one `prisma.$transaction` logs a transition when the prior status
was `pending` and updates the assignment fields (status becomes
`assigned` only from `pending`). -/
def assignPsychologue (db : Db) (id : Nat) (dto : AssignPsychologueDto) (assignedBy : Nat) :
    Except ServiceError Db :=
  match db.findCandidature id with
  | none => .error (.notFound "Candidature not found")
  | some candidature =>
    if !(db.validPsychologue dto.psychologueId) then
      .error (.badRequest "Invalid psychologue ID")
    else
      let db1 :=
        if candidature.status == CandidatureStatus.pending then
          db.addTransition
            { candidatureId := id
              fromStatus := some candidature.status
              toStatus := .assigned
              transitionedBy := assignedBy
              reason := some "Assigned" }
        else db
      .ok (db1.updateCandidature id (fun c =>
        { c with
          assignedPsychologueId := some dto.psychologueId
          assignedBy := some assignedBy
          assignmentDate := some db.now
          status := if candidature.status == CandidatureStatus.pending then .assigned
                    else candidature.status }))

/-- `AssignTestsDto` (`optionalLogicalTestId`: `none` = field absent,
`some none` = explicit null). -/
structure AssignTestsDto where
  logicalTestId : Nat
  optionalLogicalTestId : Option (Option Nat) := none
  includePersonalityTest : Option Bool := none
  examDate : Option Nat := none
  notifyCandidate : Option Bool := none
deriving DecidableEq, Repr

/-- The candidature field rewrite performed inside the `assignTests`
transaction.  Prisma skips a column whose data value is `undefined`, so an
absent `optionalLogicalTestId` and an undefined `personalityTestId` leave
the stored columns unchanged; `examDate` falls back to the exam date of
the candidature row that was loaded before the update
(`loadedExamDate`). -/
def applyTestFields (dto : AssignTestsDto) (personalityTestId : Option Nat)
    (loadedExamDate : Option Nat) (newStatus : CandidatureStatus) (c : Candidature) :
    Candidature :=
  { c with
    assignedLogicalTestId := some dto.logicalTestId
    assignedOptionalLogicalTestId := match dto.optionalLogicalTestId with
      | none => c.assignedOptionalLogicalTestId
      | some v => v
    assignedPersonalityTestId := match personalityTestId with
      | none => c.assignedPersonalityTestId
      | some p => some p
    examDate := match dto.examDate with
      | some d => some d
      | none => loadedExamDate
    status := newStatus }

/-- The personality-test auto-selection of `assignTests`: unless
explicitly suppressed, the id of the first active personality test. -/
def assignTestsPersonality (db : Db) (dto : AssignTestsDto) : Option Nat :=
  if dto.includePersonalityTest != some false then
    (db.personalityTests.find? (fun (p : PersonalityTest) => p.isActive)).map
      (fun (p : PersonalityTest) => p.id)
  else none

/-- The new-status computation of `assignTests`: the source conditional
whose two branches both yield `assigned`, kept as written. -/
def assignTestsNewStatus (candidature : Candidature) : CandidatureStatus :=
  if candidature.assignedPsychologueId.isSome then .assigned else .assigned

/-- The `prisma.$transaction` body of `assignTests`: log a transition when
the status changes, then update the test assignment fields. -/
def assignTestsWrite (db : Db) (id : Nat) (candidature : Candidature) (dto : AssignTestsDto)
    (assignedBy : Nat) : Db :=
  let personalityTestId := assignTestsPersonality db dto
  let newStatus := assignTestsNewStatus candidature
  let db1 :=
    if candidature.status != newStatus then
      db.addTransition
        { candidatureId := id
          fromStatus := some candidature.status
          toStatus := newStatus
          transitionedBy := assignedBy
          reason := some "Tests assigned" }
    else db
  db1.updateCandidature id
    (applyTestFields dto personalityTestId candidature.examDate newStatus)

/-- `CandidaturesService.assignTests`: requires status `pending` or
`assigned`; validates the main and optional logical tests; auto-selects
the first active personality test unless suppressed; then in one
`prisma.$transaction` logs a transition when the status changes and
updates the test assignment fields. -/
def assignTests (db : Db) (id : Nat) (dto : AssignTestsDto) (assignedBy : Nat) :
    Except ServiceError Db :=
  match db.findCandidature id with
  | none => .error (.notFound "Candidature not found")
  | some candidature =>
    if !(candidature.status == .pending || candidature.status == .assigned) then
      .error (.badRequest "Tests can only be assigned to pending or assigned candidatures")
    else if (db.logicalTests.find? (fun t => t.id == dto.logicalTestId)).isNone then
      .error (.notFound "Logical test not found")
    else if (match dto.optionalLogicalTestId with
        | some (some o) => (db.logicalTests.find? (fun (t : LogicalTest) => t.id == o)).isNone
        | _ => false) then
      .error (.notFound "Optional logical test not found")
    else
      .ok (assignTestsWrite db id candidature dto assignedBy)

end CandidaturesService

-- ============================================================================
-- TranslationsService (src/modules/logical-tests/translations/translations.service.ts)
-- ============================================================================

/-- A `languages` registry row (the Prisma model is named `Language`; that
name is taken by Mathlib at the root namespace). -/
structure LanguageRow where
  code : String
  name : String := ""
  isActive : Bool
  isDefault : Bool
deriving DecidableEq, Repr

/-- A `logical_test_translations` row. -/
structure LogicalTestTranslation where
  testId : Nat
  languageCode : String
  name : String := ""
  description : Option String := none
  instructions : String := ""
deriving DecidableEq, Repr

namespace TranslationsService

/-- The hardcoded fallback language code (shared/constants.ts). -/
def DEFAULT_LANGUAGE_CODE : String := "fr"

/-- `getDefaultLanguageCode`: the code of the registry row with
`isDefault = true`, or the hardcoded fallback when no such row exists. -/
def getDefaultLanguageCode (langs : List LanguageRow) : String :=
  match langs.find? (fun l => l.isDefault) with
  | some l => l.code
  | none => DEFAULT_LANGUAGE_CODE

/-- `resolveLanguageCode`: the requested code when it names an active
registry language, the default language code otherwise. -/
def resolveLanguageCode (langs : List LanguageRow) (requestedLang : String) : String :=
  if (langs.find? (fun l => l.code == requestedLang && l.isActive)).isSome then
    requestedLang
  else
    getDefaultLanguageCode langs

/-- `prisma.logicalTestTranslation.findUnique` on the unique key
`(testId, languageCode)`. -/
def findTestTranslation (trs : List LogicalTestTranslation) (testId : Nat)
    (languageCode : String) : Option LogicalTestTranslation :=
  trs.find? (fun t => t.testId == testId && t.languageCode == languageCode)

/-- `getTestTranslation`: resolves the language, looks the translation up
at the resolved code and, when absent and the resolved code differs from
the hardcoded `DEFAULT_LANGUAGE_CODE`, falls back to one further lookup at
`DEFAULT_LANGUAGE_CODE`. -/
def getTestTranslation (langs : List LanguageRow) (trs : List LogicalTestTranslation)
    (testId : Nat) (requestedLang : String) : Option LogicalTestTranslation :=
  let lang := resolveLanguageCode langs requestedLang
  match findTestTranslation trs testId lang with
  | some t => some t
  | none =>
    if lang != DEFAULT_LANGUAGE_CODE then
      findTestTranslation trs testId DEFAULT_LANGUAGE_CODE
    else
      none

/-- The specification wording of `getXTranslation`, for comparison with
the source function: the spec describes the second lookup as being made at
the registry default language (the language the resolver falls back to),
not at the hardcoded constant. -/
def getTestTranslationSpecWording (langs : List LanguageRow) (trs : List LogicalTestTranslation)
    (testId : Nat) (requestedLang : String) : Option LogicalTestTranslation :=
  let lang := resolveLanguageCode langs requestedLang
  let dflt := getDefaultLanguageCode langs
  match findTestTranslation trs testId lang with
  | some t => some t
  | none =>
    if lang != dflt then
      findTestTranslation trs testId dflt
    else
      none

/-- `validateLanguageCodes`: dedupes the codes, keeps those that do not
name an active registry language, and throws listing all of them when any
exist. -/
def validateLanguageCodes (langs : List LanguageRow) (codes : List String) :
    Except ServiceError Unit :=
  let uniqueCodes := codes.eraseDups
  let invalidCodes := uniqueCodes.filter
    (fun c => (langs.find? (fun l => l.code == c && l.isActive)).isNone)
  if invalidCodes.isEmpty then .ok ()
  else .error (.badRequest "Invalid or inactive language codes")

/-- `ensureNotDeletingDefaultTranslation` (specialised to one parent): the
guard only fires when the language being deleted is the registry default
AND the parent has at most one translation left in total. -/
def ensureNotDeletingDefaultTranslation (langs : List LanguageRow)
    (totalTranslationsOfParent : Nat) (languageCode : String) :
    Except ServiceError Unit :=
  if languageCode == getDefaultLanguageCode langs then
    if totalTranslationsOfParent ≤ 1 then
      .error (.badRequest "Cannot delete the last remaining translation. At least one translation must exist.")
    else
      .ok ()
  else
    .ok ()

/-- `deleteTestTranslation`: runs the deletion guard, then deletes the
`(testId, languageCode)` row (Prisma throws when the row does not
exist). -/
def deleteTestTranslation (langs : List LanguageRow) (trs : List LogicalTestTranslation)
    (testId : Nat) (languageCode : String) :
    Except ServiceError (List LogicalTestTranslation) :=
  match ensureNotDeletingDefaultTranslation langs
      (trs.countP (fun t => t.testId == testId)) languageCode with
  | .error e => .error e
  | .ok _ =>
    if (findTestTranslation trs testId languageCode).isNone then
      .error (.notFound "Record to delete does not exist")
    else
      .ok (trs.filter (fun t => !(t.testId == testId && t.languageCode == languageCode)))

end TranslationsService

-- ============================================================================
-- TestsService score classifications (src/modules/logical-tests/tests/tests.service.ts)
-- ============================================================================

/-- Stable ascending insertion of `a` into a list already sorted on `key`:
`a` is placed before the first element whose key is `≥ key a`.  Together
with `sortByKey` this reproduces the stable ascending sort that
`Array.prototype.sort` with the comparator `(a, b) => key a - key b`
performs. -/
def insertByKey {α : Type} (key : α → Int) (a : α) : List α → List α
  | [] => [a]
  | b :: bs => if key a ≤ key b then a :: b :: bs else b :: insertByKey key a bs

/-- Stable ascending sort on `key` (insertion sort). -/
def sortByKey {α : Type} (key : α → Int) : List α → List α
  | [] => []
  | a :: as => insertByKey key a (sortByKey key as)

namespace TestsService

/-- `ScoreClassificationTranslationDto`. -/
structure ScoreClassificationTranslationDto where
  languageCode : String
  label : String := ""
  description : Option String := none
deriving DecidableEq, Repr

/-- `ScoreClassificationItemDto`. -/
structure ScoreClassificationItemDto where
  displayOrder : Int
  minScore : Int
  maxScore : Int
  colorCode : Option String := none
  translations : List ScoreClassificationTranslationDto := []
deriving DecidableEq, Repr

/-- `UpsertClassificationsDto`. -/
structure UpsertClassificationsDto where
  classifications : List ScoreClassificationItemDto
deriving DecidableEq, Repr

/-- A stored `score_classifications` row (with its translations). -/
structure ScoreClassification where
  testId : Nat
  displayOrder : Int
  minScore : Int
  maxScore : Int
  colorCode : Option String
  translations : List ScoreClassificationTranslationDto
deriving DecidableEq, Repr

/-- The row inserted for one input item of `upsertClassifications`. -/
def itemToRow (testId : Nat) (c : ScoreClassificationItemDto) : ScoreClassification :=
  { testId := testId
    displayOrder := c.displayOrder
    minScore := c.minScore
    maxScore := c.maxScore
    colorCode := c.colorCode
    translations := c.translations }

/-- The adjacent-pair overlap loop of `validateClassificationRanges`:
walking the sorted list, the first pair with `curr.minScore ≤
prev.maxScore` throws. -/
def checkAdjacentRanges : List ScoreClassificationItemDto → Except ServiceError Unit
  | a :: b :: rest =>
    if b.minScore ≤ a.maxScore then
      .error (.badRequest "Score range overlap between adjacent classifications")
    else
      checkAdjacentRanges (b :: rest)
  | _ => .ok ()

/-- `validateClassificationRanges`: sorts the items by `displayOrder`,
throws on the first item with `minScore > maxScore`, then throws on the
first adjacent overlapping pair. -/
def validateClassificationRanges (classifications : List ScoreClassificationItemDto) :
    Except ServiceError Unit :=
  match (sortByKey (fun c => c.displayOrder) classifications).find?
      (fun c => c.maxScore < c.minScore) with
  | some _ => .error (.badRequest "minScore cannot be greater than maxScore")
  | none => checkAdjacentRanges (sortByKey (fun c => c.displayOrder) classifications)

/-- The insert loop of the `upsertClassifications` transaction: each item
becomes one row; the unique index on `(test_id, display_order)` makes an
insert that repeats a display order fail (rolling the transaction
back). -/
def insertClassificationRows (testId : Nat) (acc : List ScoreClassification) :
    List ScoreClassificationItemDto → Except ServiceError (List ScoreClassification)
  | [] => .ok acc
  | item :: rest =>
    if acc.any (fun r => r.testId == testId && r.displayOrder == item.displayOrder) then
      .error (.conflict "Unique constraint failed on (test_id, display_order)")
    else
      insertClassificationRows testId (acc ++ [itemToRow testId item]) rest

/-- `upsertClassifications`: find the test, validate the score ranges,
validate the language codes of all translations, then in one
`prisma.$transaction` delete every stored classification of the test and
insert the new set.  The stored classification table is passed in and the
replaced table is returned; an error leaves the caller with the previous
table. -/
def upsertClassifications (tests : List LogicalTest) (stored : List ScoreClassification)
    (langs : List LanguageRow) (testId : Nat) (dto : UpsertClassificationsDto) :
    Except ServiceError (List ScoreClassification) :=
  if (tests.find? (fun t => t.id == testId)).isNone then
    .error (.notFound "Test not found")
  else
    match validateClassificationRanges dto.classifications with
    | .error e => .error e
    | .ok _ =>
      match TranslationsService.validateLanguageCodes langs
          (dto.classifications.flatMap (fun c => c.translations.map (fun t => t.languageCode))) with
      | .error e => .error e
      | .ok _ =>
        insertClassificationRows testId
          (stored.filter (fun r => !(r.testId == testId)))
          dto.classifications

end TestsService

-- ============================================================================
-- Claim-side predicates and helper lemmas
-- ============================================================================

namespace TestsService

/-- Some adjacent pair of the list (in order) overlaps:
`next.minScore ≤ prev.maxScore`. -/
def hasAdjacentOverlap : List ScoreClassificationItemDto → Bool
  | a :: b :: rest => (decide (b.minScore ≤ a.maxScore)) || hasAdjacentOverlap (b :: rest)
  | _ => false

/-- The failure condition of claim C2, stated independently of the
validation code: after sorting by `displayOrder`, some item has
`minScore > maxScore` or some adjacent pair overlaps. -/
def badClassificationSet (items : List ScoreClassificationItemDto) : Bool :=
  ((sortByKey (fun c => c.displayOrder) items).any (fun c => decide (c.maxScore < c.minScore)))
    || hasAdjacentOverlap (sortByKey (fun c => c.displayOrder) items)

/-- Adjacent overlap over stored rows. -/
def hasAdjacentOverlapRows : List ScoreClassification → Bool
  | a :: b :: rest => (decide (b.minScore ≤ a.maxScore)) || hasAdjacentOverlapRows (b :: rest)
  | _ => false

/-- The success condition of claim C2 on a stored classification set: when
sorted by `displayOrder`, every row has `minScore ≤ maxScore` and no
adjacent pair overlaps. -/
def wellFormedRows (rows : List ScoreClassification) : Bool :=
  ((sortByKey (fun r => r.displayOrder) rows).all (fun r => decide (r.minScore ≤ r.maxScore)))
    && !hasAdjacentOverlapRows (sortByKey (fun r => r.displayOrder) rows)

theorem checkAdjacentRanges_ok_iff :
    ∀ l, checkAdjacentRanges l = .ok () ↔ hasAdjacentOverlap l = false
  | [] => by simp [checkAdjacentRanges, hasAdjacentOverlap]
  | [a] => by simp [checkAdjacentRanges, hasAdjacentOverlap]
  | a :: b :: rest => by
    rw [checkAdjacentRanges, hasAdjacentOverlap]
    by_cases h : b.minScore ≤ a.maxScore
    · simp [h]
    · simp [h, checkAdjacentRanges_ok_iff (b :: rest)]

theorem checkAdjacentRanges_error :
    ∀ l, hasAdjacentOverlap l = true →
      checkAdjacentRanges l = .error (.badRequest "Score range overlap between adjacent classifications")
  | [] => by simp [hasAdjacentOverlap]
  | [a] => by simp [hasAdjacentOverlap]
  | a :: b :: rest => by
    rw [checkAdjacentRanges, hasAdjacentOverlap]
    by_cases h : b.minScore ≤ a.maxScore
    · simp [h]
    · simp [h]
      exact checkAdjacentRanges_error (b :: rest)

theorem insertClassificationRows_ok (testId : Nat) :
    ∀ (items : List ScoreClassificationItemDto) (acc res : List ScoreClassification),
      insertClassificationRows testId acc items = .ok res →
      res = acc ++ items.map (itemToRow testId) := by
  intro items
  induction items with
  | nil =>
    intro acc res h
    simp [insertClassificationRows] at h
    simp [h]
  | cons item rest ih =>
    intro acc res h
    rw [insertClassificationRows] at h
    by_cases hdup : acc.any (fun r => r.testId == testId && r.displayOrder == item.displayOrder)
    · simp [hdup] at h
    · simp only [hdup, if_neg, Bool.false_eq_true, not_false_eq_true, if_false] at h
      have := ih (acc ++ [itemToRow testId item]) res h
      simp [this]

end TestsService

namespace TestsService

theorem insertByKey_map {α β : Type} (key : β → Int) (f : α → β) (keyA : α → Int)
    (hk : ∀ a, key (f a) = keyA a) (a : α) :
    ∀ l : List α, insertByKey key (f a) (l.map f) = (insertByKey keyA a l).map f
  | [] => by simp [insertByKey]
  | b :: bs => by
    simp only [List.map_cons, insertByKey, hk]
    by_cases h : keyA a ≤ keyA b
    · simp [h]
    · simp [h, insertByKey_map key f keyA hk a bs]

theorem sortByKey_map {α β : Type} (key : β → Int) (f : α → β) (keyA : α → Int)
    (hk : ∀ a, key (f a) = keyA a) :
    ∀ l : List α, sortByKey key (l.map f) = (sortByKey keyA l).map f
  | [] => by simp [sortByKey]
  | a :: as => by
    simp only [List.map_cons, sortByKey]
    rw [sortByKey_map key f keyA hk as, insertByKey_map key f keyA hk]

theorem hasAdjacentOverlapRows_map (testId : Nat) :
    ∀ l : List ScoreClassificationItemDto,
      hasAdjacentOverlapRows (l.map (itemToRow testId)) = hasAdjacentOverlap l
  | [] => by simp [hasAdjacentOverlapRows, hasAdjacentOverlap]
  | [a] => by simp [hasAdjacentOverlapRows, hasAdjacentOverlap]
  | a :: b :: rest => by
    rw [List.map_cons, List.map_cons, hasAdjacentOverlapRows, hasAdjacentOverlap]
    rw [← List.map_cons]
    rw [hasAdjacentOverlapRows_map testId (b :: rest)]
    rfl

theorem wellFormedRows_map (testId : Nat) (items : List ScoreClassificationItemDto)
    (hbad : badClassificationSet items = false) :
    wellFormedRows (items.map (itemToRow testId)) = true := by
  unfold badClassificationSet at hbad
  unfold wellFormedRows
  rw [sortByKey_map (fun r => r.displayOrder) (itemToRow testId)
      (fun c => c.displayOrder) (fun a => rfl) items]
  simp only [Bool.or_eq_false_iff] at hbad
  obtain ⟨h1, h2⟩ := hbad
  rw [hasAdjacentOverlapRows_map testId, h2]
  simp only [Bool.not_false, Bool.and_true]
  rw [List.all_eq_true]
  intro x hx
  rw [List.mem_map] at hx
  obtain ⟨y, hy, rfl⟩ := hx
  simp only [List.any_eq_false] at h1
  have hy2 := h1 y hy
  simp only [itemToRow, decide_eq_true_eq] at hy2 ⊢
  omega

end TestsService

-- ============================================================================
-- Frame lemmas for the database primitives
-- ============================================================================

theorem updateCandidature_transitions (db : Db) (id : Nat) (f : Candidature → Candidature) :
    (db.updateCandidature id f).transitions = db.transitions := rfl

theorem updateCandidature_logicalTests (db : Db) (id : Nat) (f : Candidature → Candidature) :
    (db.updateCandidature id f).logicalTests = db.logicalTests := rfl

theorem updateCandidature_personalityTests (db : Db) (id : Nat) (f : Candidature → Candidature) :
    (db.updateCandidature id f).personalityTests = db.personalityTests := rfl

theorem updateCandidature_jobApplications (db : Db) (id : Nat) (f : Candidature → Candidature) :
    (db.updateCandidature id f).jobApplications = db.jobApplications := rfl

theorem updateCandidature_users (db : Db) (id : Nat) (f : Candidature → Candidature) :
    (db.updateCandidature id f).users = db.users := rfl

theorem updateCandidature_candidatures (db : Db) (id : Nat) (f : Candidature → Candidature) :
    (db.updateCandidature id f).candidatures
      = db.candidatures.map (fun c => if c.id == id then f c else c) := rfl

theorem addTransition_candidatures (db : Db) (t : CandidatureStateTransition) :
    (db.addTransition t).candidatures = db.candidatures := rfl

theorem addTransition_logicalTests (db : Db) (t : CandidatureStateTransition) :
    (db.addTransition t).logicalTests = db.logicalTests := rfl

theorem addTransition_personalityTests (db : Db) (t : CandidatureStateTransition) :
    (db.addTransition t).personalityTests = db.personalityTests := rfl

theorem addTransition_jobApplications (db : Db) (t : CandidatureStateTransition) :
    (db.addTransition t).jobApplications = db.jobApplications := rfl

theorem addTransition_users (db : Db) (t : CandidatureStateTransition) :
    (db.addTransition t).users = db.users := rfl

theorem addTransition_transitions (db : Db) (t : CandidatureStateTransition) :
    (db.addTransition t).transitions = db.transitions ++ [t] := rfl

/-- `find?` of the row with a given id over an id-preserving row update. -/
theorem find?_update_list (l : List Candidature) (id : Nat) (f : Candidature → Candidature)
    (hf : ∀ c, (f c).id = c.id) :
    (l.map (fun c => if c.id == id then f c else c)).find? (fun c => c.id == id)
      = (l.find? (fun c => c.id == id)).map f := by
  induction l with
  | nil => rfl
  | cons a l ih =>
    by_cases h : a.id = id
    · simp [List.find?_cons, h, hf, -List.find?_map]
    · have ih2 := ih
      simp only [beq_iff_eq] at ih2
      simp [List.find?_cons, h, -List.find?_map, ih2]

-- ============================================================================
-- Claim theorems
-- ============================================================================

/-- **C4.** For a candidature in status `evaluated`, `archive` succeeds,
sets the status to `archived` and appends exactly one transition-log row
`{from: evaluated, to: archived}`; a second `archive` call on the result
fails with the precondition error (`BadRequestException`, the
PreconditionFailed of the error taxonomy).  For a candidature in any
other status, `archive` fails with that same error — and by the
`Except`-state convention of this embedding an error leaves the
candidature and its transition log unchanged. -/
theorem archive_spec (db : Db) (id u : Nat) (c : Candidature)
    (hc : db.findCandidature id = some c) :
    (c.status = .evaluated →
      ∃ db', CandidaturesService.archive db id u = .ok db' ∧
        (db'.findCandidature id).map (fun x => x.status) = some .archived ∧
        db'.transitions = db.transitions ++
          [{ candidatureId := id, fromStatus := some .evaluated, toStatus := .archived,
             transitionedBy := u, reason := some "Archived" }] ∧
        CandidaturesService.archive db' id u =
          .error (.badRequest "Only evaluated candidatures can be archived")) ∧
    (c.status ≠ .evaluated →
      CandidaturesService.archive db id u =
        .error (.badRequest "Only evaluated candidatures can be archived")) := by
  constructor
  · intro hev
    refine ⟨(db.addTransition
        { candidatureId := id, fromStatus := some c.status, toStatus := .archived,
          transitionedBy := u, reason := some "Archived" }).updateCandidature id
        (fun x => { x with status := CandidatureStatus.archived }), ?_, ?_, ?_, ?_⟩
    · unfold CandidaturesService.archive
      rw [hc]
      simp [hev]
    · rw [Db.findCandidature, updateCandidature_candidatures, addTransition_candidatures,
          find?_update_list db.candidatures id
            (fun x => { x with status := CandidatureStatus.archived }) (fun x => rfl)]
      have hc2 : db.candidatures.find? (fun x => x.id == id) = some c := hc
      rw [hc2]
      rfl
    · rw [updateCandidature_transitions, addTransition_transitions, hev]
    · unfold CandidaturesService.archive
      rw [Db.findCandidature, updateCandidature_candidatures, addTransition_candidatures,
          find?_update_list db.candidatures id
            (fun x => { x with status := CandidatureStatus.archived }) (fun x => rfl)]
      have hc2 : db.candidatures.find? (fun x => x.id == id) = some c := hc
      rw [hc2]
      rfl
  · intro hne
    unfold CandidaturesService.archive
    rw [hc]
    simp [bne_iff_ne, hne]

/-- Witness for `archive_spec` at a concrete database. -/
theorem archive_spec_witness :
    ∃ db', CandidaturesService.archive
      { users := [], sites := [], departments := [], jobApplications := [],
        candidatures := [{ id := 1, jobApplicationId := 1, status := .evaluated }],
        transitions := [], logicalTests := [], personalityTests := [],
        nextId := 2, now := 0 } 1 9 = .ok db' ∧
      (db'.findCandidature 1).map (fun x => x.status) = some .archived := by
  have h := (archive_spec
    { users := [], sites := [], departments := [], jobApplications := [],
      candidatures := [{ id := 1, jobApplicationId := 1, status := .evaluated }],
      transitions := [], logicalTests := [], personalityTests := [],
      nextId := 2, now := 0 } 1 9
    { id := 1, jobApplicationId := 1, status := .evaluated } (by rfl)).1 rfl
  obtain ⟨db', h1, h2, h3, h4⟩ := h
  exact ⟨db', h1, h2⟩

/-- **C5.** For an existing job application: when it is `approved`, has no
candidature yet and no immediate psychologue assignment is supplied,
`create` succeeds and appends exactly one candidature in status `pending`
(touching nothing else, in particular writing no transition row); when its
status is not `approved`, `create` fails with the precondition error and
(by the `Except`-state convention) changes nothing; and a second `create`
call on the state produced by any successful `create` fails with the
conflict error. -/
theorem create_spec (db : Db) (dto : CandidaturesService.CreateCandidatureDto) (u : Nat)
    (app : JobApplication)
    (happ : db.jobApplications.find? (fun a => a.id == dto.jobApplicationId) = some app) :
    (app.status = .approved →
      (∀ c ∈ db.candidatures, ¬ c.jobApplicationId = dto.jobApplicationId) →
      dto.assignedPsychologueId = none →
      CandidaturesService.create db dto u =
        .ok { db with
              candidatures := db.candidatures ++ [CandidaturesService.createRow dto u db.nextId]
              nextId := db.nextId + 1 } ∧
      (CandidaturesService.createRow dto u db.nextId).status = .pending ∧
      (CandidaturesService.createRow dto u db.nextId).jobApplicationId = dto.jobApplicationId) ∧
    (app.status ≠ .approved →
      CandidaturesService.create db dto u =
        .error (.badRequest "Job application must be approved before creating candidature")) ∧
    (∀ db', CandidaturesService.create db dto u = .ok db' →
      CandidaturesService.create db' dto u =
        .error (.conflict "Job application already has a candidature")) := by
  refine ⟨?_, ?_, ?_⟩
  · intro h1 h2 h3
    have hnone : db.candidatures.find? (fun c => c.jobApplicationId == dto.jobApplicationId) = none := by
      rw [List.find?_eq_none]
      intro x hx
      simpa using h2 x hx
    refine ⟨?_, ?_, ?_⟩
    · unfold CandidaturesService.create CandidaturesService.createEffects
      rw [happ]
      simp [h1, h3, hnone, Except.map]
    · simp [CandidaturesService.createRow, h3]
    · simp [CandidaturesService.createRow]
  · intro hne
    unfold CandidaturesService.create CandidaturesService.createEffects
    rw [happ]
    simp [bne_iff_ne, hne, Except.map]
  · intro db' h
    unfold CandidaturesService.create CandidaturesService.createEffects at h
    rw [happ] at h
    by_cases hs : app.status = ApplicationStatus.approved
    · by_cases hdup : (db.candidatures.find? (fun c => c.jobApplicationId == dto.jobApplicationId)).isSome
      · simp [hs, hdup, Except.map] at h
      · by_cases hp : (dto.assignedPsychologueId.isSome &&
            !(db.validPsychologue (dto.assignedPsychologueId.getD 0))) = true
        · simp [hs, hdup, hp, Except.map] at h
        · simp only [hs, bne_self_eq_false, Bool.false_eq_true, if_false, hdup, hp,
            Except.map, Bool.not_eq_true] at h
          -- h identifies db' with the folded state; compute its tables
          have hj : db'.jobApplications = db.jobApplications := by
            cases hps : dto.assignedPsychologueId.isSome <;>
              (simp [hps] at h; rw [← h]; try rfl)
          have hcand : db'.candidatures
              = db.candidatures ++ [CandidaturesService.createRow dto u db.nextId] := by
            cases hps : dto.assignedPsychologueId.isSome <;>
              (simp [hps] at h; rw [← h]; try rfl)
          unfold CandidaturesService.create CandidaturesService.createEffects
          rw [hj, happ]
          have hfound : (db'.candidatures.find?
              (fun c => c.jobApplicationId == dto.jobApplicationId)).isSome := by
            rw [List.find?_isSome]
            refine ⟨CandidaturesService.createRow dto u db.nextId, ?_, ?_⟩
            · rw [hcand]
              simp
            · simp [CandidaturesService.createRow]
          simp [hs, hfound, Except.map]
    · simp [bne_iff_ne, hs, Except.map] at h

/-- Witness for `create_spec` at a concrete database: the first call
appends one pending candidature, the second call returns the conflict
error. -/
theorem create_spec_witness :
    ∃ db', CandidaturesService.create
      { users := [], sites := [], departments := [],
        jobApplications := [{ id := 1, candidateId := 2, siteId := 1, departmentId := 1,
                              targetPosition := "Operator", status := .approved }],
        candidatures := [], transitions := [], logicalTests := [], personalityTests := [],
        nextId := 5, now := 0 } { jobApplicationId := 1 } 9 = .ok db' ∧
      CandidaturesService.create db' { jobApplicationId := 1 } 9 =
        .error (.conflict "Job application already has a candidature") := by
  have h := create_spec
    { users := [], sites := [], departments := [],
      jobApplications := [{ id := 1, candidateId := 2, siteId := 1, departmentId := 1,
                            targetPosition := "Operator", status := .approved }],
      candidatures := [], transitions := [], logicalTests := [], personalityTests := [],
      nextId := 5, now := 0 } { jobApplicationId := 1 } 9
    { id := 1, candidateId := 2, siteId := 1, departmentId := 1,
      targetPosition := "Operator", status := .approved } (by rfl)
  obtain ⟨hok, -, hsecond⟩ := h
  obtain ⟨h1, -, -⟩ := hok rfl (by simp) rfl
  exact ⟨_, h1, hsecond _ h1⟩

/-- **C9.** When `createManual` is given an `assignedPsychologueId` and
all reference checks pass, the created candidature starts directly in
status `assigned` with the assignment metadata set (`assignedPsychologueId`
and `assignedBy`), and the operation writes no transition-log row at all:
the transition table is untouched and, the new id being fresh, the new
candidature has an empty transition log right after creation. -/
theorem createManual_assigned_no_log (db : Db)
    (dto : CandidaturesService.CreateManualCandidatureDto) (u p : Nat) (db' : Db)
    (hp : dto.assignedPsychologueId = some p)
    (hfresh : ∀ t ∈ db.transitions, t.candidatureId ≠ db.nextId + 1)
    (h : CandidaturesService.createManual db dto u = .ok db') :
    ∃ c : Candidature,
      db'.candidatures = db.candidatures ++ [c] ∧
      c.status = .assigned ∧
      c.assignedPsychologueId = some p ∧
      c.assignedBy = some u ∧
      db'.transitions = db.transitions ∧
      db'.transitions.filter (fun t => t.candidatureId == c.id) = [] := by
  unfold CandidaturesService.createManual at h
  split at h
  · exact Except.noConfusion h
  split at h
  · exact Except.noConfusion h
  split at h
  · exact Except.noConfusion h
  split at h
  · exact Except.noConfusion h
  split at h
  · exact Except.noConfusion h
  split at h
  · exact Except.noConfusion h
  injection h with h
  subst h
  refine ⟨_, rfl, ?_, ?_, ?_, rfl, ?_⟩
  · simp [hp]
  · simp [hp]
  · simp [hp]
  · rw [List.filter_eq_nil_iff]
    intro t ht
    simpa using hfresh t ht

/-- Witness for `createManual_assigned_no_log` at a concrete database. -/
theorem createManual_assigned_no_log_witness :
    ∃ db' c, CandidaturesService.createManual
      { users := [{ id := 2, role := .candidate }, { id := 7, role := .psychologue }],
        sites := [{ id := 1 }], departments := [{ id := 1 }],
        jobApplications := [], candidatures := [], transitions := [],
        logicalTests := [], personalityTests := [], nextId := 10, now := 0 }
      { candidateId := 2, siteId := 1, departmentId := 1,
        assignedPsychologueId := some 7 } 9 = .ok db' ∧
      db'.candidatures = [c] ∧ c.status = .assigned ∧ db'.transitions = [] := by
  obtain ⟨db', hdb⟩ : ∃ x, CandidaturesService.createManual
      { users := [{ id := 2, role := .candidate }, { id := 7, role := .psychologue }],
        sites := [{ id := 1 }], departments := [{ id := 1 }],
        jobApplications := [], candidatures := [], transitions := [],
        logicalTests := [], personalityTests := [], nextId := 10, now := 0 }
      { candidateId := 2, siteId := 1, departmentId := 1,
        assignedPsychologueId := some 7 } 9 = .ok x := ⟨_, rfl⟩
  obtain ⟨c, hc1, hc2, -, -, hc5, -⟩ := createManual_assigned_no_log _ _ 9 7 db' rfl
    (by simp) hdb
  exact ⟨db', c, hdb, by simpa using hc1, hc2, by simpa using hc5⟩

/-- **C10.** For every existing candidature and every `update` input (any
combination of dpNumber, examDate, assignedPsychologueId, including
assigning a psychologue while the status is `pending`), a successful
`update` rewrites only the row with the given id through
`applyUpdateFields` — which can change only `dpNumber`, `examDate`,
`assignedPsychologueId` and `assignedBy` (the assigner) and preserves
every other field, in particular `status` — and writes no transition-log
row. -/
theorem update_frame (db : Db) (id : Nat) (dto : CandidaturesService.UpdateCandidatureDto)
    (userId : Nat) (db' : Db)
    (h : CandidaturesService.update db id dto userId = .ok db') :
    db'.transitions = db.transitions ∧
    db'.jobApplications = db.jobApplications ∧
    db'.candidatures = db.candidatures.map
      (fun c => if c.id == id then CandidaturesService.applyUpdateFields dto userId c else c) ∧
    ∀ c : Candidature,
      (CandidaturesService.applyUpdateFields dto userId c).status = c.status ∧
      (CandidaturesService.applyUpdateFields dto userId c).id = c.id ∧
      (CandidaturesService.applyUpdateFields dto userId c).jobApplicationId = c.jobApplicationId ∧
      (CandidaturesService.applyUpdateFields dto userId c).assignmentDate = c.assignmentDate ∧
      (CandidaturesService.applyUpdateFields dto userId c).assignedLogicalTestId
        = c.assignedLogicalTestId ∧
      (CandidaturesService.applyUpdateFields dto userId c).assignedOptionalLogicalTestId
        = c.assignedOptionalLogicalTestId ∧
      (CandidaturesService.applyUpdateFields dto userId c).assignedPersonalityTestId
        = c.assignedPersonalityTestId ∧
      (CandidaturesService.applyUpdateFields dto userId c).decision = c.decision ∧
      (CandidaturesService.applyUpdateFields dto userId c).decisionDate = c.decisionDate ∧
      (CandidaturesService.applyUpdateFields dto userId c).decisionBy = c.decisionBy ∧
      (CandidaturesService.applyUpdateFields dto userId c).decisionComments
        = c.decisionComments ∧
      (CandidaturesService.applyUpdateFields dto userId c).previousCandidatureId
        = c.previousCandidatureId ∧
      (CandidaturesService.applyUpdateFields dto userId c).isReevaluation = c.isReevaluation := by
  unfold CandidaturesService.update at h
  split at h
  · exact Except.noConfusion h
  split at h
  · exact Except.noConfusion h
  injection h with h
  subst h
  exact ⟨rfl, rfl, rfl, fun c =>
    ⟨rfl, rfl, rfl, rfl, rfl, rfl, rfl, rfl, rfl, rfl, rfl, rfl, rfl⟩⟩

/-- Witness for `update_frame`: assigning a psychologue to a pending
candidature through `update` leaves the status `pending` and the
transition log empty. -/
theorem update_frame_witness :
    ∃ db', CandidaturesService.update
      { users := [{ id := 7, role := .psychologue }], sites := [], departments := [],
        jobApplications := [], candidatures := [{ id := 1, jobApplicationId := 1, status := .pending }],
        transitions := [], logicalTests := [], personalityTests := [], nextId := 2, now := 0 }
      1 { assignedPsychologueId := some (some 7) } 9 = .ok db' ∧
      db'.transitions = [] ∧
      (db'.findCandidature 1).map (fun c => c.status) = some .pending := by
  obtain ⟨db', hdb⟩ : ∃ x, CandidaturesService.update
      { users := [{ id := 7, role := .psychologue }], sites := [], departments := [],
        jobApplications := [], candidatures := [{ id := 1, jobApplicationId := 1, status := .pending }],
        transitions := [], logicalTests := [], personalityTests := [], nextId := 2, now := 0 }
      1 { assignedPsychologueId := some (some 7) } 9 = .ok x := ⟨_, rfl⟩
  have h := update_frame _ 1 _ 9 db' hdb
  refine ⟨db', hdb, ?_, ?_⟩
  · rw [h.1]
  · rw [Db.findCandidature, h.2.2.1]
    rfl

/-- **C8.** `resolveLanguageCode` is total: it returns the requested code
when that code names an active registry language; otherwise the code of
the registry row with `isDefault = true` when one exists; otherwise the
hardcoded fallback code. -/
theorem resolveLanguageCode_total (langs : List LanguageRow) (req : String) :
    ((langs.find? (fun l => l.code == req && l.isActive)).isSome →
      TranslationsService.resolveLanguageCode langs req = req) ∧
    (∀ l, langs.find? (fun l => l.code == req && l.isActive) = none →
      langs.find? (fun l => l.isDefault) = some l →
      TranslationsService.resolveLanguageCode langs req = l.code) ∧
    (langs.find? (fun l => l.code == req && l.isActive) = none →
      langs.find? (fun l => l.isDefault) = none →
      TranslationsService.resolveLanguageCode langs req
        = TranslationsService.DEFAULT_LANGUAGE_CODE) := by
  refine ⟨?_, ?_, ?_⟩
  · intro h
    unfold TranslationsService.resolveLanguageCode
    simp [h]
  · intro l h1 h2
    unfold TranslationsService.resolveLanguageCode TranslationsService.getDefaultLanguageCode
    simp [h1, h2]
  · intro h1 h2
    unfold TranslationsService.resolveLanguageCode TranslationsService.getDefaultLanguageCode
    simp [h1, h2]

/-- Witness for `resolveLanguageCode_total`: an active requested code is
kept, an unknown code resolves to the registry default, and with an empty
registry the hardcoded fallback is returned. -/
theorem resolveLanguageCode_total_witness :
    TranslationsService.resolveLanguageCode
      [{ code := "fr", isActive := true, isDefault := true }] "fr" = "fr" ∧
    TranslationsService.resolveLanguageCode
      [{ code := "fr", isActive := true, isDefault := true }] "de" = "fr" ∧
    TranslationsService.resolveLanguageCode [] "de" = "fr" := by
  refine ⟨?_, ?_, ?_⟩
  · exact (resolveLanguageCode_total
      [{ code := "fr", isActive := true, isDefault := true }] "fr").1 (by rfl)
  · exact (resolveLanguageCode_total
      [{ code := "fr", isActive := true, isDefault := true }] "de").2.1
      { code := "fr", isActive := true, isDefault := true } (by rfl) (by rfl)
  · exact (resolveLanguageCode_total [] "de").2.2 (by rfl) (by rfl)

/-- **C7 counterexample.** With registry `{en: default, active}` and a
test whose only translation is `fr`, requesting `en` resolves to `en`
(the registry default): under the claim — one fallback lookup at the
registry default language, `none` iff neither the resolved-language nor
the default-language translation exists — the result would be `none`
(`getTestTranslationSpecWording`), but the source falls back to the
hardcoded code `fr` and returns the `fr` translation. -/
theorem getTestTranslation_counterexample :
    TranslationsService.getTestTranslation
      [{ code := "en", isActive := true, isDefault := true }]
      [{ testId := 1, languageCode := "fr" }] 1 "en"
      = some { testId := 1, languageCode := "fr" } ∧
    TranslationsService.getTestTranslationSpecWording
      [{ code := "en", isActive := true, isDefault := true }]
      [{ testId := 1, languageCode := "fr" }] 1 "en" = none := by
  exact ⟨rfl, rfl⟩

/-- **C7 amended.** `getTestTranslation` is total (never throws): it
returns the translation stored at the resolved language when one exists;
when none exists and the resolved language differs from the hardcoded
`DEFAULT_LANGUAGE_CODE` (`"fr"`), it performs the one fallback lookup
there; and it returns `none` exactly when neither the resolved-language
nor the `DEFAULT_LANGUAGE_CODE` translation exists for the parent. -/
theorem getTestTranslation_fallback (langs : List LanguageRow)
    (trs : List LogicalTestTranslation) (testId : Nat) (req : String) :
    (TranslationsService.getTestTranslation langs trs testId req = none ↔
      TranslationsService.findTestTranslation trs testId
        (TranslationsService.resolveLanguageCode langs req) = none ∧
      TranslationsService.findTestTranslation trs testId
        TranslationsService.DEFAULT_LANGUAGE_CODE = none) ∧
    (∀ t, TranslationsService.findTestTranslation trs testId
        (TranslationsService.resolveLanguageCode langs req) = some t →
      TranslationsService.getTestTranslation langs trs testId req = some t) ∧
    (TranslationsService.findTestTranslation trs testId
        (TranslationsService.resolveLanguageCode langs req) = none →
      TranslationsService.resolveLanguageCode langs req
        ≠ TranslationsService.DEFAULT_LANGUAGE_CODE →
      TranslationsService.getTestTranslation langs trs testId req =
        TranslationsService.findTestTranslation trs testId
          TranslationsService.DEFAULT_LANGUAGE_CODE) := by
  refine ⟨?_, ?_, ?_⟩
  · unfold TranslationsService.getTestTranslation
    cases hfind : TranslationsService.findTestTranslation trs testId
        (TranslationsService.resolveLanguageCode langs req) with
    | some t => simp [hfind]
    | none =>
      by_cases hd : TranslationsService.resolveLanguageCode langs req
          = TranslationsService.DEFAULT_LANGUAGE_CODE
      · rw [← hd]
        simp [hfind, bne_iff_ne]
      · simp [hfind, bne_iff_ne, hd]
  · intro t ht
    unfold TranslationsService.getTestTranslation
    simp [ht]
  · intro h1 h2
    unfold TranslationsService.getTestTranslation
    simp [h1, bne_iff_ne, h2]

/-- Witness for `getTestTranslation_fallback`: with default `fr` and only
a `fr` translation, requesting `de` resolves to `fr` and returns the
stored translation. -/
theorem getTestTranslation_fallback_witness :
    TranslationsService.getTestTranslation
      [{ code := "fr", isActive := true, isDefault := true }]
      [{ testId := 1, languageCode := "fr" }] 1 "de"
      = some { testId := 1, languageCode := "fr" } := by
  exact (getTestTranslation_fallback
    [{ code := "fr", isActive := true, isDefault := true }]
    [{ testId := 1, languageCode := "fr" }] 1 "de").2.1
    { testId := 1, languageCode := "fr" } (by rfl)

/-- **C3.** Evaluation of the deletion guard at the failing input of the
last-translation claim: with registry `{fr: default+active, en: active}`
and a test whose only translation is the non-default `en`,
`deleteTestTranslation` succeeds and leaves the test with zero
translations.  The guard of the source only fires when the deleted
language equals the registry default, so a parent whose only translation
is in a non-default language can be emptied, contradicting the claimed
invariant (and the stated intent of the guard). -/
theorem deleteTestTranslation_empties_parent :
    TranslationsService.deleteTestTranslation
      [{ code := "fr", isActive := true, isDefault := true },
       { code := "en", isActive := true, isDefault := false }]
      [{ testId := 1, languageCode := "en" }] 1 "en" = .ok [] := by
  rfl

/-- **C1.** Evaluation of `create` with an immediate psychologue
assignment at a concrete database: validation yields TWO separate atomic
write effects (the candidature insert and the transition-log insert are
two separate top-level Prisma calls, not one `$transaction`), and in the
reachable state where only the first write has been persisted there is a
candidature in status `assigned` while the transition table is still
empty — a persisted status change without its log entry, which the
all-or-nothing claim rules out.  The uninterrupted run does write the log
entry. -/
theorem create_assignment_not_atomic :
    (∃ effects, CandidaturesService.createEffects
      { users := [{ id := 7, role := .psychologue }], sites := [], departments := [],
        jobApplications := [{ id := 1, candidateId := 2, siteId := 1, departmentId := 1,
                              targetPosition := "Operator", status := .approved }],
        candidatures := [], transitions := [], logicalTests := [], personalityTests := [],
        nextId := 10, now := 0 }
      { jobApplicationId := 1, assignedPsychologueId := some 7 } 9 = .ok effects ∧
      effects.length = 2) ∧
    (CandidaturesService.createAfterFirstWrite
      { users := [{ id := 7, role := .psychologue }], sites := [], departments := [],
        jobApplications := [{ id := 1, candidateId := 2, siteId := 1, departmentId := 1,
                              targetPosition := "Operator", status := .approved }],
        candidatures := [], transitions := [], logicalTests := [], personalityTests := [],
        nextId := 10, now := 0 }
      { jobApplicationId := 1, assignedPsychologueId := some 7 } 9).map
      (fun d => (d.candidatures.map (fun c => c.status), d.transitions)) =
      some ([CandidatureStatus.assigned], []) ∧
    (CandidaturesService.create
      { users := [{ id := 7, role := .psychologue }], sites := [], departments := [],
        jobApplications := [{ id := 1, candidateId := 2, siteId := 1, departmentId := 1,
                              targetPosition := "Operator", status := .approved }],
        candidatures := [], transitions := [], logicalTests := [], personalityTests := [],
        nextId := 10, now := 0 }
      { jobApplicationId := 1, assignedPsychologueId := some 7 } 9).map
      (fun d => d.transitions.length) = .ok 1 := by
  exact ⟨⟨_, rfl, rfl⟩, rfl, rfl⟩

/-- **C2.** For `upsertClassifications` on an existing test: when, after
sorting the items by `displayOrder`, some item has `minScore > maxScore`
or some adjacent pair has `next.minScore ≤ prev.maxScore`, the call
throws a `BadRequestException` (InvalidArgument) — and by the
`Except`-state convention the previously stored classification set is
untouched; when the call succeeds, the stored set of the test equals the
input set, the rows of all other tests are unchanged, and the stored set
is sorted-by-displayOrder non-overlapping with every row satisfying
`minScore ≤ maxScore`. -/
theorem upsertClassifications_spec (tests : List LogicalTest)
    (stored : List TestsService.ScoreClassification) (langs : List LanguageRow)
    (testId : Nat) (dto : TestsService.UpsertClassificationsDto)
    (htest : (tests.find? (fun t => t.id == testId)).isSome) :
    (TestsService.badClassificationSet dto.classifications = true →
      ∃ msg, TestsService.upsertClassifications tests stored langs testId dto
        = .error (.badRequest msg)) ∧
    (∀ stored2, TestsService.upsertClassifications tests stored langs testId dto
        = .ok stored2 →
      stored2.filter (fun r => r.testId == testId)
        = dto.classifications.map (TestsService.itemToRow testId) ∧
      TestsService.wellFormedRows (stored2.filter (fun r => r.testId == testId)) = true ∧
      stored2.filter (fun r => !(r.testId == testId))
        = stored.filter (fun r => !(r.testId == testId))) := by
  obtain ⟨t, ht⟩ := Option.isSome_iff_exists.mp htest
  constructor
  · intro hbad
    unfold TestsService.upsertClassifications
    simp only [ht, Option.isNone_some, Bool.false_eq_true, if_false]
    unfold TestsService.validateClassificationRanges
    unfold TestsService.badClassificationSet at hbad
    cases hf : (sortByKey (fun c => c.displayOrder) dto.classifications).find?
        (fun c => decide (c.maxScore < c.minScore)) with
    | some c =>
      exact ⟨_, rfl⟩
    | none =>
      have hany : ((sortByKey (fun c => c.displayOrder) dto.classifications).any
          (fun c => decide (c.maxScore < c.minScore))) = false := by
        rw [List.any_eq_false]
        intro x hx
        simpa using List.find?_eq_none.mp hf x hx
      rw [hany, Bool.false_or] at hbad
      rw [TestsService.checkAdjacentRanges_error _ hbad]
      exact ⟨_, rfl⟩
  · intro stored2 hok
    unfold TestsService.upsertClassifications at hok
    simp only [ht, Option.isNone_some, Bool.false_eq_true, if_false] at hok
    cases hval : TestsService.validateClassificationRanges dto.classifications with
    | error e =>
      rw [hval] at hok
      exact Except.noConfusion hok
    | ok v =>
      cases v
      rw [hval] at hok
      cases hlang : TranslationsService.validateLanguageCodes langs
          (dto.classifications.flatMap (fun c => c.translations.map (fun tr => tr.languageCode))) with
      | error e =>
        rw [hlang] at hok
        exact Except.noConfusion hok
      | ok w =>
        rw [hlang] at hok
        have hres := TestsService.insertClassificationRows_ok testId dto.classifications _ _ hok
        -- extract that the validation passed from hval
        have hbadfalse : TestsService.badClassificationSet dto.classifications = false := by
          unfold TestsService.validateClassificationRanges at hval
          cases hf : (sortByKey (fun c => c.displayOrder) dto.classifications).find?
              (fun c => decide (c.maxScore < c.minScore)) with
          | some c =>
            rw [hf] at hval
            exact Except.noConfusion hval
          | none =>
            rw [hf] at hval
            have hany : ((sortByKey (fun c => c.displayOrder) dto.classifications).any
                (fun c => decide (c.maxScore < c.minScore))) = false := by
              rw [List.any_eq_false]
              intro x hx
              simpa using List.find?_eq_none.mp hf x hx
            have hval2 : TestsService.checkAdjacentRanges
                (sortByKey (fun c => c.displayOrder) dto.classifications) = .ok () := hval
            have hov : TestsService.hasAdjacentOverlap
                (sortByKey (fun c => c.displayOrder) dto.classifications) = false :=
              (TestsService.checkAdjacentRanges_ok_iff _).mp hval2
            unfold TestsService.badClassificationSet
            rw [hany, hov]
            rfl
        have hfilter1 : stored2.filter (fun r => r.testId == testId)
            = dto.classifications.map (TestsService.itemToRow testId) := by
          rw [hres, List.filter_append]
          have hleft : (stored.filter (fun r => !(r.testId == testId))).filter
              (fun r => r.testId == testId) = [] := by
            rw [List.filter_eq_nil_iff]
            intro a ha
            have hm := (List.mem_filter.mp ha).2
            simp at hm
            simp [hm]
          have hright : (dto.classifications.map (TestsService.itemToRow testId)).filter
              (fun r => r.testId == testId)
              = dto.classifications.map (TestsService.itemToRow testId) := by
            rw [List.filter_eq_self]
            intro a ha
            rw [List.mem_map] at ha
            obtain ⟨y, hy, rfl⟩ := ha
            simp [TestsService.itemToRow]
          rw [hleft, hright, List.nil_append]
        refine ⟨hfilter1, ?_, ?_⟩
        · rw [hfilter1]
          exact TestsService.wellFormedRows_map testId dto.classifications hbadfalse
        · rw [hres, List.filter_append]
          have hright : (dto.classifications.map (TestsService.itemToRow testId)).filter
              (fun r => !(r.testId == testId)) = [] := by
            rw [List.filter_eq_nil_iff]
            intro a ha
            rw [List.mem_map] at ha
            obtain ⟨y, hy, rfl⟩ := ha
            simp [TestsService.itemToRow]
          have hleft : (stored.filter (fun r => !(r.testId == testId))).filter
              (fun r => !(r.testId == testId))
              = stored.filter (fun r => !(r.testId == testId)) := by
            rw [List.filter_eq_self]
            intro a ha
            exact (List.mem_filter.mp ha).2
          rw [hleft, hright, List.append_nil]

/-- Witness for `upsertClassifications_spec`: an overlapping input set
(`15 ≤ 20` across displayOrders 1 and 2) is rejected with a
`BadRequestException`, and a disjoint one is stored well-formed. -/
theorem upsertClassifications_spec_witness :
    (∃ msg, TestsService.upsertClassifications [{ id := 5, isActive := true }] []
      [{ code := "fr", isActive := true, isDefault := true }] 5
      { classifications :=
          [{ displayOrder := 1, minScore := 0, maxScore := 20,
             translations := [{ languageCode := "fr" }] },
           { displayOrder := 2, minScore := 15, maxScore := 44,
             translations := [{ languageCode := "fr" }] }] }
      = .error (.badRequest msg)) ∧
    (∀ stored2, TestsService.upsertClassifications [{ id := 5, isActive := true }] []
      [{ code := "fr", isActive := true, isDefault := true }] 5
      { classifications :=
          [{ displayOrder := 1, minScore := 0, maxScore := 20,
             translations := [{ languageCode := "fr" }] },
           { displayOrder := 2, minScore := 21, maxScore := 44,
             translations := [{ languageCode := "fr" }] }] }
      = .ok stored2 →
      TestsService.wellFormedRows (stored2.filter (fun r => r.testId == 5)) = true) := by
  constructor
  · exact (upsertClassifications_spec [{ id := 5, isActive := true }] []
      [{ code := "fr", isActive := true, isDefault := true }] 5
      { classifications :=
          [{ displayOrder := 1, minScore := 0, maxScore := 20,
             translations := [{ languageCode := "fr" }] },
           { displayOrder := 2, minScore := 15, maxScore := 44,
             translations := [{ languageCode := "fr" }] }] } (by rfl)).1 (by rfl)
  · intro stored2 h2
    exact ((upsertClassifications_spec [{ id := 5, isActive := true }] []
      [{ code := "fr", isActive := true, isDefault := true }] 5
      { classifications :=
          [{ displayOrder := 1, minScore := 0, maxScore := 20,
             translations := [{ languageCode := "fr" }] },
           { displayOrder := 2, minScore := 21, maxScore := 44,
             translations := [{ languageCode := "fr" }] }] } (by rfl)).2 stored2 h2).2.1

theorem assignTestsNewStatus_eq (c : Candidature) :
    CandidaturesService.assignTestsNewStatus c = .assigned := by
  unfold CandidaturesService.assignTestsNewStatus
  split <;> rfl

theorem applyTestFields_status (dto : CandidaturesService.AssignTestsDto) (pid e : Option Nat)
    (ns : CandidatureStatus) (x : Candidature) :
    (CandidaturesService.applyTestFields dto pid e ns x).status = ns := rfl

theorem applyTestFields_examDate (dto : CandidaturesService.AssignTestsDto) (pid e : Option Nat)
    (ns : CandidatureStatus) (x : Candidature) :
    (CandidaturesService.applyTestFields dto pid e ns x).examDate
      = match dto.examDate with | some d => some d | none => e := rfl

theorem applyTestFields_idem (dto : CandidaturesService.AssignTestsDto) (pid e : Option Nat)
    (ns : CandidatureStatus) (x : Candidature) :
    CandidaturesService.applyTestFields dto pid
        (match dto.examDate with | some d => some d | none => e) ns
        (CandidaturesService.applyTestFields dto pid e ns x)
      = CandidaturesService.applyTestFields dto pid e ns x := by
  cases hex : dto.examDate <;> cases hopt : dto.optionalLogicalTestId <;> cases hpid : pid <;>
    simp [CandidaturesService.applyTestFields, hex, hopt, hpid]

theorem assignTestsWrite_logicalTests (db : Db) (id : Nat) (c : Candidature)
    (dto : CandidaturesService.AssignTestsDto) (u : Nat) :
    (CandidaturesService.assignTestsWrite db id c dto u).logicalTests = db.logicalTests := by
  simp only [CandidaturesService.assignTestsWrite]
  split <;> rfl

theorem assignTestsWrite_personalityTests (db : Db) (id : Nat) (c : Candidature)
    (dto : CandidaturesService.AssignTestsDto) (u : Nat) :
    (CandidaturesService.assignTestsWrite db id c dto u).personalityTests
      = db.personalityTests := by
  simp only [CandidaturesService.assignTestsWrite]
  split <;> rfl

theorem assignTestsWrite_candidatures (db : Db) (id : Nat) (c : Candidature)
    (dto : CandidaturesService.AssignTestsDto) (u : Nat) :
    (CandidaturesService.assignTestsWrite db id c dto u).candidatures
      = db.candidatures.map (fun x => if x.id == id then
          CandidaturesService.applyTestFields dto (CandidaturesService.assignTestsPersonality db dto)
            c.examDate (CandidaturesService.assignTestsNewStatus c) x
        else x) := by
  simp only [CandidaturesService.assignTestsWrite]
  split <;> rfl

theorem assignTestsWrite_transitions_length (db : Db) (id : Nat) (c : Candidature)
    (dto : CandidaturesService.AssignTestsDto) (u : Nat) :
    (CandidaturesService.assignTestsWrite db id c dto u).transitions.length
      ≤ db.transitions.length + 1 := by
  simp only [CandidaturesService.assignTestsWrite]
  split
  · simp [Db.updateCandidature, Db.addTransition]
  · simp [Db.updateCandidature]

theorem assignTestsPersonality_congr (db1 db2 : Db) (dto : CandidaturesService.AssignTestsDto)
    (h : db1.personalityTests = db2.personalityTests) :
    CandidaturesService.assignTestsPersonality db1 dto
      = CandidaturesService.assignTestsPersonality db2 dto := by
  unfold CandidaturesService.assignTestsPersonality
  rw [h]

theorem assignTestsWrite_findCandidature (db : Db) (id : Nat) (c : Candidature)
    (dto : CandidaturesService.AssignTestsDto) (u : Nat)
    (hc : db.findCandidature id = some c) :
    (CandidaturesService.assignTestsWrite db id c dto u).findCandidature id
      = some (CandidaturesService.applyTestFields dto
          (CandidaturesService.assignTestsPersonality db dto)
          c.examDate (CandidaturesService.assignTestsNewStatus c) c) := by
  rw [Db.findCandidature, assignTestsWrite_candidatures,
      find?_update_list db.candidatures id
        (CandidaturesService.applyTestFields dto (CandidaturesService.assignTestsPersonality db dto)
          c.examDate (CandidaturesService.assignTestsNewStatus c)) (fun x => rfl)]
  have hc2 : db.candidatures.find? (fun x => x.id == id) = some c := hc
  rw [hc2]
  rfl

theorem assignTestsWrite_idem (db : Db) (id : Nat) (c : Candidature)
    (dto : CandidaturesService.AssignTestsDto) (u u2 : Nat) :
    CandidaturesService.assignTestsWrite
        (CandidaturesService.assignTestsWrite db id c dto u) id
        (CandidaturesService.applyTestFields dto
          (CandidaturesService.assignTestsPersonality db dto)
          c.examDate (CandidaturesService.assignTestsNewStatus c) c)
        dto u2
      = CandidaturesService.assignTestsWrite db id c dto u := by
  -- unfold only the OUTER write
  rw [show CandidaturesService.assignTestsWrite
        (CandidaturesService.assignTestsWrite db id c dto u) id
        (CandidaturesService.applyTestFields dto
          (CandidaturesService.assignTestsPersonality db dto)
          c.examDate (CandidaturesService.assignTestsNewStatus c) c)
        dto u2
      = (if (CandidaturesService.applyTestFields dto
              (CandidaturesService.assignTestsPersonality db dto)
              c.examDate (CandidaturesService.assignTestsNewStatus c) c).status
            != CandidaturesService.assignTestsNewStatus
              (CandidaturesService.applyTestFields dto
                (CandidaturesService.assignTestsPersonality db dto)
                c.examDate (CandidaturesService.assignTestsNewStatus c) c) then
          (CandidaturesService.assignTestsWrite db id c dto u).addTransition
            { candidatureId := id
              fromStatus := some (CandidaturesService.applyTestFields dto
                (CandidaturesService.assignTestsPersonality db dto)
                c.examDate (CandidaturesService.assignTestsNewStatus c) c).status
              toStatus := CandidaturesService.assignTestsNewStatus
                (CandidaturesService.applyTestFields dto
                  (CandidaturesService.assignTestsPersonality db dto)
                  c.examDate (CandidaturesService.assignTestsNewStatus c) c)
              transitionedBy := u2
              reason := some "Tests assigned" }
        else (CandidaturesService.assignTestsWrite db id c dto u)).updateCandidature id
        (CandidaturesService.applyTestFields dto
          (CandidaturesService.assignTestsPersonality
            (CandidaturesService.assignTestsWrite db id c dto u) dto)
          (CandidaturesService.applyTestFields dto
            (CandidaturesService.assignTestsPersonality db dto)
            c.examDate (CandidaturesService.assignTestsNewStatus c) c).examDate
          (CandidaturesService.assignTestsNewStatus
            (CandidaturesService.applyTestFields dto
              (CandidaturesService.assignTestsPersonality db dto)
              c.examDate (CandidaturesService.assignTestsNewStatus c) c)))
      from rfl]
  rw [applyTestFields_status, assignTestsNewStatus_eq, assignTestsNewStatus_eq]
  rw [bne_self_eq_false]
  rw [if_neg (by simp)]
  rw [assignTestsPersonality_congr _ db dto (assignTestsWrite_personalityTests db id c dto u)]
  rw [applyTestFields_examDate]
  -- remaining: a second row update that changes nothing
  apply Db.ext <;> try rfl
  rw [updateCandidature_candidatures, assignTestsWrite_candidatures, List.map_map]
  rw [assignTestsNewStatus_eq]
  apply List.map_congr_left
  intro x hx
  by_cases hid : x.id = id
  · simp only [Function.comp, hid, beq_self_eq_true, if_true]
    rw [if_pos (by simp [CandidaturesService.applyTestFields, hid])]
    exact applyTestFields_idem dto (CandidaturesService.assignTestsPersonality db dto)
      c.examDate CandidatureStatus.assigned x
  · simp [Function.comp, hid]

/-- **C6.** When `assignTests` succeeds (the candidature was `pending` or
`assigned`), the resulting status is `assigned`, at most one
transition-log row was written, and calling `assignTests` again with the
identical arguments succeeds and leaves the database state — candidature
fields and transition log included — exactly as after the first call (the
second call starts from `assigned` and therefore writes no log row). -/
theorem assignTests_idempotent (db : Db) (id : Nat)
    (dto : CandidaturesService.AssignTestsDto) (u : Nat) (db' : Db)
    (h : CandidaturesService.assignTests db id dto u = .ok db') :
    CandidaturesService.assignTests db' id dto u = .ok db' ∧
    db'.transitions.length ≤ db.transitions.length + 1 ∧
    (db'.findCandidature id).map (fun c => c.status) = some .assigned := by
  unfold CandidaturesService.assignTests at h
  split at h
  · exact Except.noConfusion h
  rename_i candidature hfind
  split at h
  · exact Except.noConfusion h
  rename_i hguard
  split at h
  · exact Except.noConfusion h
  rename_i hmain
  split at h
  · exact Except.noConfusion h
  rename_i hopt
  injection h with h
  subst h
  have hfind2 := assignTestsWrite_findCandidature db id candidature dto u hfind
  have hstat : (CandidaturesService.applyTestFields dto
      (CandidaturesService.assignTestsPersonality db dto)
      candidature.examDate (CandidaturesService.assignTestsNewStatus candidature)
      candidature).status = CandidatureStatus.assigned := by
    rw [applyTestFields_status, assignTestsNewStatus_eq]
  refine ⟨?_, assignTestsWrite_transitions_length db id candidature dto u, ?_⟩
  · unfold CandidaturesService.assignTests
    rw [hfind2]
    have hmain2 : ((CandidaturesService.assignTestsWrite db id candidature dto u).logicalTests.find?
        (fun t => t.id == dto.logicalTestId)).isNone = false := by
      rw [assignTestsWrite_logicalTests]
      simpa using hmain
    have hopt2 : (match dto.optionalLogicalTestId with
        | some (some o) =>
          ((CandidaturesService.assignTestsWrite db id candidature dto u).logicalTests.find?
            (fun (t : LogicalTest) => t.id == o)).isNone
        | _ => false) = false := by
      simp only [assignTestsWrite_logicalTests]
      simpa using hopt
    have hcond : (!(CandidatureStatus.assigned == CandidatureStatus.pending
        || CandidatureStatus.assigned == CandidatureStatus.assigned)) = false := by decide
    simp only [hstat, hcond, hmain2, hopt2, Bool.false_eq_true, if_false]
    exact congrArg Except.ok (assignTestsWrite_idem db id candidature dto u u)
  · rw [hfind2]
    simp [hstat]

/-- Witness for `assignTests_idempotent` at a concrete database. -/
theorem assignTests_idempotent_witness :
    ∃ db', CandidaturesService.assignTests
      { users := [], sites := [], departments := [], jobApplications := [],
        candidatures := [{ id := 1, jobApplicationId := 1, status := .pending }],
        transitions := [], logicalTests := [{ id := 3, isActive := true }],
        personalityTests := [], nextId := 2, now := 0 }
      1 { logicalTestId := 3 } 8 = .ok db' ∧
      CandidaturesService.assignTests db' 1 { logicalTestId := 3 } 8 = .ok db' ∧
      db'.transitions.length ≤ 1 ∧
      (db'.findCandidature 1).map (fun c => c.status) = some .assigned := by
  obtain ⟨db', hdb⟩ : ∃ x, CandidaturesService.assignTests
      { users := [], sites := [], departments := [], jobApplications := [],
        candidatures := [{ id := 1, jobApplicationId := 1, status := .pending }],
        transitions := [], logicalTests := [{ id := 3, isActive := true }],
        personalityTests := [], nextId := 2, now := 0 }
      1 { logicalTestId := 3 } 8 = .ok x := ⟨_, rfl⟩
  have h := assignTests_idempotent _ 1 _ 8 db' hdb
  exact ⟨db', hdb, h.1, h.2.1, h.2.2⟩
